import Mathlib

/-!
Shallow embedding of the layer-resolution engine of the `logr` logging
library (Go).  The embedded functions follow the Go source:

* `extractFromDepth`, `findInheritedLayer`, `parentPath`, `resolveLayer`,
  `getCachedLayer`, `setCachedLayer` — the resolver core;
* `SetLayerForPackage`, `SetDepth` — the registry mutation entry points
  from `logger.go` (the Go functions obtain the package path by call-stack
  introspection, an external capability; here the path is an explicit
  argument standing for that introspection result, and the Go `panic` on a
  negative depth is embedded as an error result returned before any state
  mutation);
* `Config`, `DefaultConfig`, `packageConfig` — the configuration data.

Go maps are embedded as functions into `Option`; the Go `int` is `Int`;
`strings.Split(p, "/")` is `String.splitOn "/"` (both send `""` to `[""]`);
`strings.ToUpper` is embedded by its action on ASCII letters (`goToUpper`),
which is exact for every string appearing in the development.
-/

/-- Per-package override record (`packageConfig` in config source):
`explicitLayer` set via `SetLayerForPackage`, `explicitDepth` via `SetDepth`.
A missing map entry is `none` at the outer `Option`. -/
structure packageConfig where
  explicitLayer : Option String := none
  explicitDepth : Option Int := none
deriving DecidableEq

/-- Global configuration (`Config` in the Go source). -/
structure Config where
  DefaultDepth : Int
  SkipSegments : List String
  StrictMode : Bool
  AllowedLayers : List String

/-- `DefaultConfig` from the Go source. -/
def DefaultConfig : Config :=
  { DefaultDepth := 2
    SkipSegments := ["internal", "pkg", "cmd", "adapters", "primary", "secondary"]
    StrictMode := false
    AllowedLayers := [] }

/-- ASCII upper-casing of one character (the action of Go `strings.ToUpper`
on ASCII input). -/
def upperChar (c : Char) : Char :=
  if 97 ≤ c.toNat ∧ c.toNat ≤ 122 then Char.ofNat (c.toNat - 32) else c

/-- Embedding of `strings.ToUpper` (ASCII action). -/
def goToUpper (s : String) : String :=
  String.mk (s.data.map upperChar)

/-- Splitting a character list at every occurrence of `sep` (never empty:
the empty list yields `[[]]`). -/
def splitOnChar (sep : Char) : List Char → List (List Char)
  | [] => [[]]
  | c :: cs =>
    let rest := splitOnChar sep cs
    if c = sep then [] :: rest
    else
      match rest with
      | r :: rs => (c :: r) :: rs
      | [] => [[c]]

/-- Embedding of Go `strings.Split(s, sep)` for a one-character separator:
the list of substrings between occurrences of `sep`; `""` yields `[""]`. -/
def goSplit (s : String) (sep : Char) : List String :=
  (splitOnChar sep s.data).map String.mk

/-- Embedding of Go `strings.Join(elems, sep)`. -/
def goJoin (sep : String) : List String → String
  | [] => ""
  | [s] => s
  | s :: rest => s ++ sep ++ goJoin sep rest

/-- Index of the last `/` in a character list (embedding of
`strings.LastIndex(path, "/")`; `none` is Go's `-1`). -/
def lastSlashIdx : List Char → Option Nat
  | [] => none
  | c :: cs =>
    match lastSlashIdx cs with
    | some i => some (i + 1)
    | none => if c = '/' then some 0 else none

/-- `parentPath` from the Go source: strip everything from the last `/`
(inclusive); a path without `/` has parent `""`. -/
def parentPath (path : String) : String :=
  match lastSlashIdx path.data with
  | none => ""
  | some i => String.mk (path.data.take i)

/-- `extractFromDepth` from the Go source: split on `/`, defensively clamp
`depth` into `[0, #segments]`, keep the last `depth` segments, drop the ones
listed in `skipSegments`, return `"UNKNOWN"` if nothing is left, otherwise
join with `/` and upper-case. -/
def extractFromDepth (packagePath : String) (depth : Int) (skipSegments : List String) : String :=
  let segments := goSplit packagePath '/'
  let depth1 := if depth < 0 then 0 else depth
  let depth2 := if depth1 > (segments.length : Int) then (segments.length : Int) else depth1
  let startIndex := (segments.length : Int) - depth2
  let startIndex1 := if startIndex < 0 then 0 else startIndex
  let relevant := segments.drop startIndex1.toNat
  let filtered := relevant.filter (fun seg => ¬ skipSegments.contains seg)
  if filtered = [] then "UNKNOWN"
  else goToUpper (goJoin "/" filtered)

/-- The mutable engine state: configuration, override registry and
resolution cache (the two Go maps are embedded as functions into `Option`). -/
structure LoggerState where
  config : Config
  registry : String → Option packageConfig
  layerCache : String → Option String

/-- `getCachedLayer` from the Go source (the `(string, bool)` pair is an
`Option`). -/
def getCachedLayer (l : LoggerState) (pkgPath : String) : Option String :=
  l.layerCache pkgPath

/-- `setCachedLayer` from the Go source. -/
def setCachedLayer (l : LoggerState) (pkgPath layer : String) : LoggerState :=
  { l with layerCache := fun q => if q = pkgPath then some layer else l.layerCache q }

/-- The ancestor walk of `findInheritedLayer`, with explicit fuel (the Go
loop terminates because `parentPath` shortens a nonempty path; fuel
`path.length + 1` is always enough, see `findInheritedLayerAux_congr`). -/
def findInheritedLayerAux (reg : String → Option packageConfig) : Nat → String → Option String
  | 0, _ => none
  | fuel + 1, current =>
    if current = "" then none
    else
      match (reg current).bind packageConfig.explicitLayer with
      | some layer => some layer
      | none => findInheritedLayerAux reg fuel (parentPath current)

/-- `findInheritedLayer` from the Go source: walk from the path up through
its ancestors, return the first explicit layer found, `none` once the path
becomes empty. -/
def findInheritedLayer (l : LoggerState) (packagePath : String) : Option String :=
  findInheritedLayerAux l.registry (packagePath.length + 1) packagePath

/-- `resolveLayer` from the Go source.  Returns the label together with the
post-call state (the Go function mutates the cache in place). -/
def resolveLayer (l : LoggerState) (packagePath : String) : String × LoggerState :=
  match getCachedLayer l packagePath with
  | some cachedLayer => (cachedLayer, l)
  | none =>
    match findInheritedLayer l packagePath with
    | some inherited => (inherited, setCachedLayer l packagePath inherited)
    | none =>
      let depthValue :=
        match (l.registry packagePath).bind packageConfig.explicitDepth with
        | some d => d
        | none => l.config.DefaultDepth
      let result := extractFromDepth packagePath depthValue l.config.SkipSegments
      (result, setCachedLayer l packagePath result)

/-- `SetLayerForPackage` from `logger.go`: create-or-update the registry
entry for the path, store the layer name verbatim, delete the cache entry
for that exact path. -/
def SetLayerForPackage (l : LoggerState) (packagePath layer : String) : LoggerState :=
  let pc := (l.registry packagePath).getD {}
  { l with
    registry := fun q =>
      if q = packagePath then some { pc with explicitLayer := some layer }
      else l.registry q
    layerCache := fun q => if q = packagePath then none else l.layerCache q }

/-- The failure `SetDepth` signals on a negative depth (`panic` in the Go
source, embedded as an error result surfaced before any mutation). -/
inductive SetDepthError where
  | invalidArgument
deriving DecidableEq

/-- `SetDepth` from `logger.go`: reject a negative depth with
`invalidArgument` leaving the state untouched; otherwise create-or-update
the registry entry, store the depth, delete the cache entry for that exact
path. -/
def SetDepth (l : LoggerState) (packagePath : String) (depth : Int) :
    Except SetDepthError Unit × LoggerState :=
  if depth < 0 then (Except.error SetDepthError.invalidArgument, l)
  else
    let pc := (l.registry packagePath).getD {}
    (Except.ok (),
      { l with
        registry := fun q =>
          if q = packagePath then some { pc with explicitDepth := some depth }
          else l.registry q
        layerCache := fun q => if q = packagePath then none else l.layerCache q })

/-- One observable operation on the engine state. -/
inductive Op where
  | setLayer (path name : String)
  | setDepth (path : String) (depth : Int)
  | doResolve (path : String)

/-- Apply one operation (a failed `SetDepth` leaves the state unchanged,
exactly as the Go code aborts before mutating). -/
def applyOp (l : LoggerState) : Op → LoggerState
  | Op.setLayer p n => SetLayerForPackage l p n
  | Op.setDepth p d => (SetDepth l p d).2
  | Op.doResolve p => (resolveLayer l p).2

/-- Run a list of operations, left to right. -/
def runOps (l : LoggerState) (ops : List Op) : LoggerState :=
  ops.foldl applyOp l

/-- The state a freshly initialised logger starts from: empty registry,
empty cache. -/
def initState (cfg : Config) : LoggerState :=
  { config := cfg, registry := fun _ => none, layerCache := fun _ => none }

/-- The Extractor exactly as the specification words it (for the refinement
check against `extractFromDepth`): split on `/`, clamp the depth into
`[0, #segments]`, take the last `depth` segments, remove the members of the
skip set, `"UNKNOWN"` if nothing remains, else join with `/` and
upper-case. -/
def extractSpec (path : String) (depth : Int) (skip : List String) : String :=
  let segments := goSplit path '/'
  let clamped : Nat := (min (max depth 0) (segments.length : Int)).toNat
  let lastSegs := (segments.reverse.take clamped).reverse
  let remaining := lastSegs.filter (fun seg => decide (seg ∉ skip))
  if remaining.isEmpty then "UNKNOWN"
  else goToUpper (goJoin "/" remaining)

section ExtractorLemmas

/-- The index arithmetic of `extractFromDepth` agrees with the spec's clamp:
dropping the computed start index is dropping `length - clamp depth`. -/
lemma extract_index_eq (d : Int) (n : Nat) :
    (if ((n : Int) - (if (if d < 0 then 0 else d) > (n : Int) then (n : Int)
          else (if d < 0 then 0 else d))) < 0 then 0
     else ((n : Int) - (if (if d < 0 then 0 else d) > (n : Int) then (n : Int)
          else (if d < 0 then 0 else d)))).toNat
      = n - (min (max d 0) (n : Int)).toNat := by
  split_ifs <;> omega

/-- The two filter predicates (source: `!slices.Contains`, spec: `∉ skip`)
agree. -/
lemma extract_filter_pred_eq (skip : List String) (seg : String) :
    (decide ¬(skip.contains seg = true)) = (decide (seg ∉ skip)) := by
  simp [List.contains, List.elem_eq_mem]

/-- `extractFromDepth` computes exactly the specification's reference
algorithm. -/
lemma extractFromDepth_eq_extractSpec (p : String) (d : Int) (skip : List String) :
    extractFromDepth p d skip = extractSpec p d skip := by
  unfold extractFromDepth extractSpec
  simp only [← List.rtake_eq_reverse_take_reverse, List.rtake]
  rw [extract_index_eq]
  rw [List.filter_congr (fun seg _ => extract_filter_pred_eq skip seg)]
  rcases h : List.filter (fun seg => decide (seg ∉ skip))
      (List.drop ((goSplit p '/').length - (min (max d 0) ((goSplit p '/').length : Int)).toNat)
        (goSplit p '/')) with _ | ⟨a, l⟩ <;> simp

/-- With a negative depth the clamp keeps zero segments, so the extractor
always answers the sentinel. -/
lemma extract_neg_depth (p : String) (skip : List String) :
    extractFromDepth p (-1) skip = "UNKNOWN" := by
  unfold extractFromDepth
  dsimp only
  have h0 : ¬ ((0 : Int) > ((goSplit p '/').length : Int)) := by
    simp [Int.natCast_nonneg]
  rw [if_pos (by norm_num : (-1 : Int) < 0), if_neg h0]
  have h1 : ¬ (((goSplit p '/').length : Int) - 0 < 0) := by
    simp [Int.natCast_nonneg]
  rw [if_neg h1]
  have h2 : (((goSplit p '/').length : Int) - 0).toNat = (goSplit p '/').length := by omega
  rw [h2, List.drop_length]
  simp

/-- Splitting the empty path yields the single empty segment. -/
lemma goSplit_empty : goSplit "" '/' = [""] := rfl

/-- Extracting from the empty path with a positive depth and a skip set not
containing `""` yields the empty string (not the sentinel). -/
lemma extract_empty_path (depth : Int) (skip : List String)
    (h1 : 1 ≤ depth) (h2 : "" ∉ skip) :
    extractFromDepth "" depth skip = "" := by
  unfold extractFromDepth
  rw [goSplit_empty]
  dsimp only
  have hd : ¬ (depth < 0) := by omega
  rw [if_neg hd]
  have hcontains : (skip.contains "" = true) = False := by
    simp [List.contains, List.elem_eq_mem, h2]
  by_cases hgt : depth > ((["" ]).length : Int)
  · rw [if_pos hgt]
    norm_num [hcontains]
    rw [if_neg h2]
    have hfil : List.filter (fun seg => !decide (seg ∈ skip)) [""] = [""] := by simp [h2]
    rw [hfil]
    decide
  · have hdepth : depth = 1 := by simp at hgt; omega
    rw [if_neg hgt, hdepth]
    norm_num [hcontains]
    rw [if_neg h2]
    have hfil : List.filter (fun seg => !decide (seg ∈ skip)) [""] = [""] := by simp [h2]
    rw [hfil]
    decide

end ExtractorLemmas

section WalkLemmas

/-- A list without `/` has no last slash. -/
lemma lastSlashIdx_eq_none (l : List Char) (h : ∀ c ∈ l, ¬ c = '/') :
    lastSlashIdx l = none := by
  induction l with
  | nil => rfl
  | cons c cs ih =>
    unfold lastSlashIdx
    rw [ih (fun x hx => h x (List.mem_cons_of_mem _ hx))]
    simp [h c (List.mem_cons_self _ _)]

/-- The last slash of `l ++ '/' :: seg` with `seg` slash-free sits right
after `l`. -/
lemma lastSlashIdx_append (l seg : List Char) (h : ∀ c ∈ seg, ¬ c = '/') :
    lastSlashIdx (l ++ '/' :: seg) = some l.length := by
  induction l with
  | nil =>
    show lastSlashIdx ('/' :: seg) = some 0
    unfold lastSlashIdx
    rw [lastSlashIdx_eq_none seg h]
    simp
  | cons c cs ih =>
    show lastSlashIdx (c :: (cs ++ '/' :: seg)) = some (cs.length + 1)
    unfold lastSlashIdx
    rw [ih]

/-- A found last-slash index is a valid index. -/
lemma lastSlashIdx_lt (l : List Char) (i : Nat) (h : lastSlashIdx l = some i) :
    i < l.length := by
  induction l generalizing i with
  | nil => simp [lastSlashIdx] at h
  | cons c cs ih =>
    unfold lastSlashIdx at h
    cases hcs : lastSlashIdx cs with
    | some j =>
      rw [hcs] at h
      simp only [Option.some.injEq] at h
      have := ih j hcs
      simp only [List.length_cons]
      omega
    | none =>
      rw [hcs] at h
      by_cases hc : c = '/'
      · rw [if_pos hc] at h
        simp only [Option.some.injEq] at h
        simp only [List.length_cons]
        omega
      · rw [if_neg hc] at h
        exact absurd h (by simp)

/-- Taking the parent strictly shortens every nonempty path: the Go walk of
`findInheritedLayer` terminates. -/
lemma parentPath_length_lt (path : String) (h : path ≠ "") :
    (parentPath path).length < path.length := by
  unfold parentPath
  have hne : path.data ≠ [] := by
    intro hd
    apply h
    cases path with
    | mk d =>
      simp only at hd
      subst hd
      rfl
  cases hidx : lastSlashIdx path.data with
  | none =>
    simp only [String.length]
    exact List.length_pos.mpr hne
  | some i =>
    have hi := lastSlashIdx_lt _ _ hidx
    simp only [String.length, List.length_take]
    omega

/-- Appending one slash-free segment and taking the parent is the
identity. -/
lemma parentPath_append (p seg : String) (h : ∀ c ∈ seg.data, ¬ c = '/') :
    parentPath (p ++ "/" ++ seg) = p := by
  unfold parentPath
  have hdata : (p ++ "/" ++ seg).data = p.data ++ '/' :: seg.data := by
    simp only [String.data_append]
    simp
  rw [hdata, lastSlashIdx_append _ _ h]
  show String.mk (List.take p.data.length (p.data ++ '/' :: seg.data)) = p
  rw [List.take_left' rfl]

/-- The walk's answer does not depend on the fuel, as long as the fuel
exceeds the path length (so the Go `for` loop, which has no fuel, is
faithfully embedded by `findInheritedLayer`). -/
lemma findInheritedLayerAux_congr (reg : String → Option packageConfig) :
    ∀ (f1 : Nat) (cur : String) (f2 : Nat), cur.length < f1 → cur.length < f2 →
      findInheritedLayerAux reg f1 cur = findInheritedLayerAux reg f2 cur := by
  intro f1
  induction f1 with
  | zero => intro cur f2 h1 h2; omega
  | succ g ih =>
    intro cur f2 h1 h2
    obtain ⟨g2, rfl⟩ : ∃ g2, f2 = g2 + 1 := ⟨f2 - 1, by omega⟩
    unfold findInheritedLayerAux
    by_cases hc : cur = ""
    · simp [hc]
    · rw [if_neg hc, if_neg hc]
      cases hl : (reg cur).bind packageConfig.explicitLayer with
      | some layer => rfl
      | none =>
        have hlt := parentPath_length_lt cur hc
        exact ih (parentPath cur) g2 (by omega) (by omega)

/-- `DescChain reg p d` says `d` descends from `p` by appending `/`-delimited
(slash-free) segments, none of which introduced a path carrying an explicit
layer in `reg` — the claim's "no path strictly between `d` and `p`, inclusive
of `d` itself, holds an explicit layer". -/
inductive DescChain (reg : String → Option packageConfig) : String → String → Prop where
  | refl (p : String) : DescChain reg p p
  | step (p d seg : String) : DescChain reg p d → (∀ c ∈ seg.data, ¬ c = '/') →
      (reg (d ++ "/" ++ seg)).bind packageConfig.explicitLayer = none →
      DescChain reg p (d ++ "/" ++ seg)

/-- The ancestor walk finds the explicit layer of the chain's root. -/
lemma findInheritedLayer_of_chain (s : LoggerState) (p d X : String)
    (hp : p ≠ "") (hX : (s.registry p).bind packageConfig.explicitLayer = some X)
    (hchain : DescChain s.registry p d) :
    findInheritedLayer s d = some X := by
  induction hchain with
  | refl =>
    unfold findInheritedLayer findInheritedLayerAux
    rw [if_neg hp, hX]
  | step q seg hch hseg hnone ih =>
    unfold findInheritedLayer
    have hne : q ++ "/" ++ seg ≠ "" := by
      intro h0
      have := congrArg String.length h0
      simp only [String.length_append] at this
      have h1 : ("" : String).length = 0 := rfl
      have h2 : ("/" : String).length = 1 := rfl
      omega
    unfold findInheritedLayerAux
    rw [if_neg hne, hnone, parentPath_append q seg hseg]
    have hlen : q.length < (q ++ "/" ++ seg).length + 1 - 1 + 1 := by
      simp only [String.length_append]
      have h2 : ("/" : String).length = 1 := rfl
      omega
    rw [show (q ++ "/" ++ seg).length + 1 - 1 = (q ++ "/" ++ seg).length from rfl] at *
    rw [findInheritedLayerAux_congr s.registry _ q (q.length + 1)
      (by simp only [String.length_append]; have h2 : ("/" : String).length = 1 := rfl; omega)
      (by omega)]
    exact ih

end WalkLemmas

section ResolverLemmas

/-- After any resolution the cache holds the returned label at the resolved
path. -/
lemma resolve_cache_post (s : LoggerState) (p : String) :
    (resolveLayer s p).2.layerCache p = some (resolveLayer s p).1 := by
  unfold resolveLayer getCachedLayer setCachedLayer
  cases hc : s.layerCache p with
  | some v => simp [hc]
  | none =>
    cases hi : findInheritedLayer s p with
    | some inh => simp [hc, hi]
    | none => simp [hc, hi]

/-- A cached path resolves to the cached label without touching the state. -/
lemma resolve_cache_hit (s : LoggerState) (p v : String) (h : s.layerCache p = some v) :
    resolveLayer s p = (v, s) := by
  simp [resolveLayer, getCachedLayer, h]

/-- Resolution never writes the registry. -/
lemma resolve_registry_const (s : LoggerState) (p : String) :
    (resolveLayer s p).2.registry = s.registry := by
  unfold resolveLayer getCachedLayer setCachedLayer
  cases hc : s.layerCache p with
  | some v => simp [hc]
  | none =>
    cases hi : findInheritedLayer s p with
    | some inh => simp [hc, hi]
    | none => simp [hc, hi]

/-- The registry invariant of the data model: a stored `packageConfig`
always has at least one of its two optional fields set. -/
def RegistryWF (l : LoggerState) : Prop :=
  ∀ p pc, l.registry p = some pc → pc.explicitLayer.isSome ∨ pc.explicitDepth.isSome

/-- Each single operation preserves the registry invariant. -/
lemma registryWF_applyOp (l : LoggerState) (op : Op) (h : RegistryWF l) :
    RegistryWF (applyOp l op) := by
  cases op with
  | setLayer p n =>
    intro q pc hq
    unfold applyOp SetLayerForPackage at hq
    dsimp only at hq
    by_cases hqp : q = p
    · rw [if_pos hqp] at hq
      left
      cases hq
      rfl
    · rw [if_neg hqp] at hq
      exact h q pc hq
  | setDepth p d =>
    intro q pc hq
    unfold applyOp SetDepth at hq
    dsimp only at hq
    by_cases hd : d < 0
    · rw [if_pos hd] at hq
      exact h q pc hq
    · rw [if_neg hd] at hq
      dsimp only at hq
      by_cases hqp : q = p
      · rw [if_pos hqp] at hq
        right
        cases hq
        rfl
      · rw [if_neg hqp] at hq
        exact h q pc hq
  | doResolve p =>
    intro q pc hq
    unfold applyOp at hq
    rw [resolve_registry_const] at hq
    exact h q pc hq

/-- The registry invariant holds along any operation sequence. -/
lemma registryWF_runOps (ops : List Op) (l : LoggerState) (h : RegistryWF l) :
    RegistryWF (runOps l ops) := by
  induction ops generalizing l with
  | nil => exact h
  | cons op ops ih => exact ih _ (registryWF_applyOp l op h)

end ResolverLemmas

section UpperLemmas

/-- ASCII upper-casing is idempotent on characters. -/
lemma upperChar_idem (c : Char) : upperChar (upperChar c) = upperChar c := by
  unfold upperChar
  by_cases h : 97 ≤ c.toNat ∧ c.toNat ≤ 122
  · rw [if_pos h]
    obtain ⟨h1, h2⟩ := h
    generalize hgn : c.toNat - 32 = n
    have hb1 : 65 ≤ n := by omega
    have hb2 : n ≤ 90 := by omega
    clear hgn h1 h2
    interval_cases n <;> decide
  · rw [if_neg h, if_neg h]

/-- ASCII upper-casing is idempotent on strings. -/
lemma goToUpper_idem (s : String) : goToUpper (goToUpper s) = goToUpper s := by
  show String.mk (List.map upperChar (List.map upperChar s.data)) = String.mk (List.map upperChar s.data)
  rw [List.map_map]
  congr 1
  exact List.map_congr_left (fun c _ => upperChar_idem c)

/-- The final step of the extractor is fixed by `goToUpper` in both
branches. -/
lemma goToUpper_if (l : List String) :
    goToUpper (if l = [] then "UNKNOWN" else goToUpper (goJoin "/" l))
      = if l = [] then "UNKNOWN" else goToUpper (goJoin "/" l) := by
  by_cases h : l = []
  · rw [if_pos h]
    decide
  · rw [if_neg h, goToUpper_idem]

/-- Every label the extractor produces is upper-cased (fixed by
`goToUpper`). -/
lemma goToUpper_extract (p : String) (d : Int) (skip : List String) :
    goToUpper (extractFromDepth p d skip) = extractFromDepth p d skip := by
  unfold extractFromDepth
  dsimp only
  exact goToUpper_if _

end UpperLemmas

/-- Claim C1, counterexample to the unrestricted statement.  Two reachable
scenarios violate it: (a) after `setExplicitLayer("", "X")` the registry
holds the explicit layer `"X"` for the empty path, no path lies strictly
between `""` and itself, yet `resolve("")` does not return `"X"` (the walk
stops as soon as the path is empty, so it never tests `""`); (b) after
`resolve("a/b/c")` followed by `setExplicitLayer("a/b", "X")`, the nearest
ancestor override of `"a/b/c"` is `"X"` and no strictly-between path holds a
layer, yet `resolve("a/b/c")` returns the stale cached `"B/C"` (only the
exact path `"a/b"` was invalidated). -/
theorem inheritance_counterexample :
    (((runOps (initState DefaultConfig) [Op.setLayer "" "X"]).registry "").bind
        packageConfig.explicitLayer = some "X"
      ∧ (resolveLayer (runOps (initState DefaultConfig) [Op.setLayer "" "X"]) "").1 ≠ "X")
    ∧ (((runOps (initState DefaultConfig)
            [Op.doResolve "a/b/c", Op.setLayer "a/b" "X"]).registry "a/b").bind
          packageConfig.explicitLayer = some "X"
      ∧ (runOps (initState DefaultConfig)
            [Op.doResolve "a/b/c", Op.setLayer "a/b" "X"]).registry "a/b/c" = none
      ∧ (resolveLayer (runOps (initState DefaultConfig)
            [Op.doResolve "a/b/c", Op.setLayer "a/b" "X"]) "a/b/c").1 ≠ "X") := by
  exact ⟨⟨by decide, by decide⟩, by decide, by decide, by decide⟩

/-- Claim C1 (amended): for every nonempty module path `p` holding the
explicit layer `X`, every descendant `d` of `p` (equal to `p` or formed by
appending `/`-delimited segments) such that no path strictly between `d`
and `p` (inclusive of `d`) holds an explicit layer and the cache holds no
entry for `d`, `resolve d` returns `X` — the walk tests the exact path
first and the nearest ancestor with an explicit layer wins. -/
theorem inheritance_nearest_ancestor (s : LoggerState) (p d X : String)
    (hp : p ≠ "") (hX : (s.registry p).bind packageConfig.explicitLayer = some X)
    (hchain : DescChain s.registry p d) (hcache : s.layerCache d = none) :
    (resolveLayer s d).1 = X := by
  simp [resolveLayer, getCachedLayer, hcache,
    findInheritedLayer_of_chain s p d X hp hX hchain]

/-- Witness for the amended C1: `setExplicitLayer("a/b", "X")`, then the
transitive descendant `a/b/c/d` resolves to `"X"`. -/
theorem inheritance_nearest_ancestor_witness :
    ("a/b" : String) ≠ ""
    ∧ ((runOps (initState DefaultConfig) [Op.setLayer "a/b" "X"]).registry "a/b").bind
        packageConfig.explicitLayer = some "X"
    ∧ (runOps (initState DefaultConfig) [Op.setLayer "a/b" "X"]).layerCache
        (("a/b" ++ "/" ++ "c") ++ "/" ++ "d") = none
    ∧ (resolveLayer (runOps (initState DefaultConfig) [Op.setLayer "a/b" "X"])
        (("a/b" ++ "/" ++ "c") ++ "/" ++ "d")).1 = "X" := by
  refine ⟨by decide, by decide, by decide, ?_⟩
  refine inheritance_nearest_ancestor _ "a/b" _ "X" (by decide) (by decide) ?_ (by decide)
  exact DescChain.step _ _ "d"
    (DescChain.step _ _ "c" (DescChain.refl "a/b") (by decide) (by decide))
    (by decide) (by decide)

/-- Claim C2: the extractor equals the spec's reference algorithm (split,
clamp into `[0, #segments]`, last `depth` segments, exact-membership skip
filtering, `"UNKNOWN"` sentinel on empty, join and upper-case), and
`extract("a/b/c/d", 2, ∅) = "C/D"`. -/
theorem extract_matches_reference :
    (∀ (p : String) (d : Int) (skip : List String),
        extractFromDepth p d skip = extractSpec p d skip)
    ∧ extractFromDepth "a/b/c/d" 2 [] = "C/D" :=
  ⟨extractFromDepth_eq_extractSpec, by decide⟩

/-- Claim C3, counterexample: `setExplicitLayer("a", "x")` stores the name
verbatim, and `resolve("a")` then returns the non-upper-cased `"x"`. -/
theorem uppercase_counterexample :
    (resolveLayer (runOps (initState DefaultConfig) [Op.setLayer "a" "x"]) "a").1 = "x"
    ∧ goToUpper "x" ≠ "x" :=
  ⟨by decide, by decide⟩

/-- Claim C3 (amended): every label the engine computes by extraction (no
cached entry, no inherited explicit layer) is upper-cased; a label taken
from an explicit layer override is returned exactly as stored, so it is
upper-cased only if it was stored upper-cased. -/
theorem resolve_extractor_label_uppercased (s : LoggerState) (p : String)
    (hc : s.layerCache p = none) (hi : findInheritedLayer s p = none) :
    goToUpper ((resolveLayer s p).1) = (resolveLayer s p).1 := by
  simp only [resolveLayer, getCachedLayer, hc, hi]
  exact goToUpper_extract _ _ _

/-- Witness for the amended C3 at the fresh state and path `"a/b"`. -/
theorem resolve_extractor_label_uppercased_witness :
    (initState DefaultConfig).layerCache "a/b" = none
    ∧ findInheritedLayer (initState DefaultConfig) "a/b" = none
    ∧ goToUpper ((resolveLayer (initState DefaultConfig) "a/b").1)
        = (resolveLayer (initState DefaultConfig) "a/b").1 :=
  ⟨rfl, by decide, resolve_extractor_label_uppercased _ _ rfl (by decide)⟩

/-- Claim C4: an explicit depth override applies only on an exact-match
lookup.  With depth `1` stored for `"a/b"`, no explicit depth for
`"a/b/c"`, no applicable explicit layer and no cached entries,
`resolve("a/b")` extracts at depth `1` while the descendant `"a/b/c"`
extracts at `Config.DefaultDepth`. -/
theorem depth_override_not_inherited (s : LoggerState)
    (hc1 : s.layerCache "a/b" = none) (hc2 : s.layerCache "a/b/c" = none)
    (hi1 : findInheritedLayer s "a/b" = none) (hi2 : findInheritedLayer s "a/b/c" = none)
    (hd1 : (s.registry "a/b").bind packageConfig.explicitDepth = some 1)
    (hd2 : (s.registry "a/b/c").bind packageConfig.explicitDepth = none) :
    (resolveLayer s "a/b").1 = extractFromDepth "a/b" 1 s.config.SkipSegments
    ∧ (resolveLayer s "a/b/c").1
        = extractFromDepth "a/b/c" s.config.DefaultDepth s.config.SkipSegments := by
  constructor
  · simp only [resolveLayer, getCachedLayer, hc1, hi1, hd1]
  · simp only [resolveLayer, getCachedLayer, hc2, hi2, hd2]

/-- Witness for C4 after `setExplicitDepth("a/b", 1)` on a fresh logger. -/
theorem depth_override_not_inherited_witness :
    (runOps (initState DefaultConfig) [Op.setDepth "a/b" 1]).layerCache "a/b" = none
    ∧ (runOps (initState DefaultConfig) [Op.setDepth "a/b" 1]).layerCache "a/b/c" = none
    ∧ findInheritedLayer (runOps (initState DefaultConfig) [Op.setDepth "a/b" 1]) "a/b" = none
    ∧ findInheritedLayer (runOps (initState DefaultConfig) [Op.setDepth "a/b" 1]) "a/b/c" = none
    ∧ ((runOps (initState DefaultConfig) [Op.setDepth "a/b" 1]).registry "a/b").bind
        packageConfig.explicitDepth = some 1
    ∧ ((runOps (initState DefaultConfig) [Op.setDepth "a/b" 1]).registry "a/b/c").bind
        packageConfig.explicitDepth = none
    ∧ (resolveLayer (runOps (initState DefaultConfig) [Op.setDepth "a/b" 1]) "a/b").1
        = extractFromDepth "a/b" 1
            (runOps (initState DefaultConfig) [Op.setDepth "a/b" 1]).config.SkipSegments
    ∧ (resolveLayer (runOps (initState DefaultConfig) [Op.setDepth "a/b" 1]) "a/b/c").1
        = extractFromDepth "a/b/c"
            (runOps (initState DefaultConfig) [Op.setDepth "a/b" 1]).config.DefaultDepth
            (runOps (initState DefaultConfig) [Op.setDepth "a/b" 1]).config.SkipSegments := by
  refine ⟨by decide, by decide, by decide, by decide, by decide, by decide, ?_, ?_⟩
  · exact (depth_override_not_inherited _ (by decide) (by decide) (by decide) (by decide)
      (by decide) (by decide)).1
  · exact (depth_override_not_inherited _ (by decide) (by decide) (by decide) (by decide)
      (by decide) (by decide)).2

/-- Claim C5: `setExplicitDepth` with a negative depth fails with
`invalidArgument` (the Go `panic` surfaces before any mutation), and the
whole state — in particular the registry entry and the cache entry for the
path — is exactly what it was before the call. -/
theorem setDepth_negative_invalid (l : LoggerState) (p : String) (d : Int) (hd : d < 0) :
    SetDepth l p d = (Except.error SetDepthError.invalidArgument, l)
    ∧ ((SetDepth l p d).2).registry p = l.registry p
    ∧ ((SetDepth l p d).2).layerCache p = l.layerCache p := by
  have h : SetDepth l p d = (Except.error SetDepthError.invalidArgument, l) := by
    unfold SetDepth
    rw [if_pos hd]
  exact ⟨h, by rw [h], by rw [h]⟩

/-- Witness for C5 with depth `-1` on a fresh logger. -/
theorem setDepth_negative_invalid_witness :
    ((-1 : Int) < 0)
    ∧ (SetDepth (initState DefaultConfig) "a/b" (-1)
          = (Except.error SetDepthError.invalidArgument, initState DefaultConfig)
        ∧ ((SetDepth (initState DefaultConfig) "a/b" (-1)).2).registry "a/b"
            = (initState DefaultConfig).registry "a/b"
        ∧ ((SetDepth (initState DefaultConfig) "a/b" (-1)).2).layerCache "a/b"
            = (initState DefaultConfig).layerCache "a/b") :=
  ⟨by norm_num, setDepth_negative_invalid (initState DefaultConfig) "a/b" (-1) (by norm_num)⟩

/-- Claim C6: resolution is idempotent and memoized.  After `resolve p` the
cache maps `p` to exactly the returned label, and a second `resolve p` with
no intervening writes returns the identical string and is answered from the
cache (it changes nothing). -/
theorem resolve_idempotent_memoized (s : LoggerState) (p : String) :
    (resolveLayer s p).2.layerCache p = some (resolveLayer s p).1
    ∧ (resolveLayer ((resolveLayer s p).2) p).1 = (resolveLayer s p).1
    ∧ (resolveLayer ((resolveLayer s p).2) p).2 = (resolveLayer s p).2 := by
  have h1 := resolve_cache_post s p
  have h2 := resolve_cache_hit _ p _ h1
  exact ⟨h1, by rw [h2], by rw [h2]⟩

/-- Claim C7: `setExplicitLayer(p, name)` and a successful
`setExplicitDepth(p, d)` each remove the cache entry for exactly `p` and
leave every cache entry of any other path, and every registry entry of any
other path, unchanged. -/
theorem exact_path_invalidation_frame (l : LoggerState) (p n : String) (d : Int)
    (q : String) (hq : q ≠ p) (hd : 0 ≤ d) :
    (SetLayerForPackage l p n).layerCache p = none
    ∧ (SetLayerForPackage l p n).layerCache q = l.layerCache q
    ∧ (SetLayerForPackage l p n).registry q = l.registry q
    ∧ ((SetDepth l p d).2).layerCache p = none
    ∧ ((SetDepth l p d).2).layerCache q = l.layerCache q
    ∧ ((SetDepth l p d).2).registry q = l.registry q := by
  have hd' : ¬ (d < 0) := by omega
  refine ⟨?_, ?_, ?_, ?_, ?_, ?_⟩ <;>
    simp [SetLayerForPackage, SetDepth, hd', hq]

/-- Witness for C7 at `p = "a/b"`, `q = "c"`, depth `0`. -/
theorem exact_path_invalidation_frame_witness :
    ("c" : String) ≠ "a/b"
    ∧ ((0 : Int) ≤ 0)
    ∧ ((SetLayerForPackage (initState DefaultConfig) "a/b" "X").layerCache "a/b" = none
      ∧ (SetLayerForPackage (initState DefaultConfig) "a/b" "X").layerCache "c"
          = (initState DefaultConfig).layerCache "c"
      ∧ (SetLayerForPackage (initState DefaultConfig) "a/b" "X").registry "c"
          = (initState DefaultConfig).registry "c"
      ∧ ((SetDepth (initState DefaultConfig) "a/b" 0).2).layerCache "a/b" = none
      ∧ ((SetDepth (initState DefaultConfig) "a/b" 0).2).layerCache "c"
          = (initState DefaultConfig).layerCache "c"
      ∧ ((SetDepth (initState DefaultConfig) "a/b" 0).2).registry "c"
          = (initState DefaultConfig).registry "c") :=
  ⟨by decide, by norm_num,
    exact_path_invalidation_frame (initState DefaultConfig) "a/b" "X" 0 "c"
      (by decide) (by norm_num)⟩

/-- Claim C8: starting from the empty registry, any sequence of
`setExplicitLayer` / `setExplicitDepth` (and `resolve`) operations leaves
every stored `packageConfig` with at least one of its two optional fields
set. -/
theorem registry_entries_never_empty (cfg : Config) (ops : List Op) :
    RegistryWF (runOps (initState cfg) ops) :=
  registryWF_runOps ops (initState cfg) (fun _ _ h => Option.noConfusion h)

/-- Claim C9: the extractor is total for every integer depth thanks to
defensive clamping: a depth above the segment count clamps to the full
path (`extract("a/b", 10, ∅) = "A/B"`), and a negative depth clamps to `0`,
leaving no segments, so every path yields the `"UNKNOWN"` sentinel. -/
theorem extractor_defensive_clamping :
    extractFromDepth "a/b" 10 [] = "A/B"
    ∧ ∀ (p : String) (skip : List String), extractFromDepth p (-1) skip = "UNKNOWN" :=
  ⟨by decide, extract_neg_depth⟩

/-- Claim C10: splitting the empty path yields the one-element sequence
`[""]`, which survives filtering whenever the skip set lacks `""`; so with
any depth at least `1` the extractor returns `""` (not `"UNKNOWN"`), and
`resolve("")` with no applicable overrides, no cached entry and a default
depth of at least `1` returns `""`. -/
theorem empty_path_resolves_empty (depth : Int) (skip : List String) (s : LoggerState)
    (h1 : 1 ≤ depth) (h2 : "" ∉ skip)
    (hc : s.layerCache "" = none) (hr : s.registry "" = none)
    (hd : 1 ≤ s.config.DefaultDepth) (hs : "" ∉ s.config.SkipSegments) :
    extractFromDepth "" depth skip = "" ∧ (resolveLayer s "").1 = "" := by
  refine ⟨extract_empty_path depth skip h1 h2, ?_⟩
  have hfi : findInheritedLayer s "" = none := rfl
  simp only [resolveLayer, getCachedLayer, hc, hfi, hr]
  exact extract_empty_path _ _ hd hs

/-- Witness for C10 at depth `2`, empty skip set and a fresh logger with the
default configuration. -/
theorem empty_path_resolves_empty_witness :
    ((1 : Int) ≤ 2)
    ∧ ("" : String) ∉ ([] : List String)
    ∧ (initState DefaultConfig).layerCache "" = none
    ∧ (initState DefaultConfig).registry "" = none
    ∧ ((1 : Int) ≤ (initState DefaultConfig).config.DefaultDepth)
    ∧ ("" : String) ∉ (initState DefaultConfig).config.SkipSegments
    ∧ extractFromDepth "" 2 [] = ""
    ∧ (resolveLayer (initState DefaultConfig) "").1 = "" := by
  refine ⟨by norm_num, by decide, rfl, rfl, by norm_num [initState, DefaultConfig], by decide,
    ?_, ?_⟩
  · exact (empty_path_resolves_empty 2 [] (initState DefaultConfig) (by norm_num) (by decide)
      rfl rfl (by norm_num [initState, DefaultConfig]) (by decide)).1
  · exact (empty_path_resolves_empty 2 [] (initState DefaultConfig) (by norm_num) (by decide)
      rfl rfl (by norm_num [initState, DefaultConfig]) (by decide)).2

